import Mathlib

/-!
Verification of the persistence and path-normalization core of the
PF2e Character Gallery Tagger (`pf2e_character_gallery_tagger.py`).

The embedding models the `ImageTagger` state and the operations the
specification talks about: `save_and_next`, `update_saved_count`,
`_load_processed_paths`, `_append_to_log`, `make_relative` and
`normalize_path`.  File-system effects are made explicit:

* the JSON datastore (`datasheet.json`) is a `JsonContent` value: the file
  can be absent, hold undecodable text (a `json.JSONDecodeError` on load),
  hold a JSON array of entries, or hold well-formed JSON whose top-level
  value is not an array;
* the processed-path log (`processed_log.txt`) is the list of its lines
  (each line is stored without its trailing newline character);
* the outcome of `open(JSON_FILE, "w")` / `json.dump` is an explicit
  `WriteOutcome` oracle: opening can raise `PermissionError` or another
  `OSError` (prior contents untouched), or open can succeed — which
  truncates the file — and the dump itself can then fail, leaving
  truncated, hence undecodable, content behind.

Paths are plain strings; the `os.path` functions used by `make_relative`
(`abspath`/`normpath`/`relpath`) are modelled on the list of `/`-separated
components, exactly the representation `os.path.relpath` itself works on.
-/

/-- Model of Python `str.strip()` on its default (whitespace) argument:
drop leading and trailing whitespace characters. -/
def pyStrip (s : String) : String :=
  ⟨((s.data.dropWhile Char.isWhitespace).reverse.dropWhile Char.isWhitespace).reverse⟩

/-- Components of a path string, split on the `/` separator
(`"/a/b".splitOn "/" = ["", "a", "b"]`). -/
def splitPath (p : String) : List String :=
  p.splitOn "/"

/-- Join path components back with `/`, as `os.path.join("a", "b", ...)` of
relative components does. -/
def joinPath (l : List String) : String :=
  String.intercalate "/" l

/-- One step of lexical path normalization (`os.path.normpath` on an
absolute path, viewed on the component list with the accumulator kept
reversed): empty components and `.` are dropped, `..` pops the previous
component (at the root it is dropped), anything else is kept. -/
def normStep (acc : List String) (c : String) : List String :=
  if c = "" ∨ c = "." then acc
  else if c = ".." then acc.tail
  else c :: acc

/-- The non-empty component list of `os.path.normpath` applied to an
absolute path: exactly the `[x for x in abspath(p).split(sep) if x]`
lists that `os.path.relpath` computes for its two arguments. -/
def normComponents (l : List String) : List String :=
  (l.foldl normStep []).reverse

/-- Length of the longest common prefix of two component lists
(`os.path.commonprefix` on lists compares elementwise). -/
def commonPrefixLen : List String → List String → Nat
  | a :: as, b :: bs => if a = b then commonPrefixLen as bs + 1 else 0
  | _, _ => 0

/-- Component-level model of `os.path.relpath(path, start)` for absolute
inputs: normalize both, drop the common prefix, go up with `..` for each
remaining `start` component, and descend into the rest of `path`; the
empty result is the current directory `.`. -/
def relpathComps (path start : List String) : List String :=
  let ps := normComponents path
  let ss := normComponents start
  let i := commonPrefixLen ss ps
  let r := List.replicate (ss.length - i) ".." ++ ps.drop i
  if r = [] then ["."] else r

/-- Component-level model of `pathlib.Path(p).as_posix()` (the body of
`normalize_path`): `PurePath` parsing collapses empty components and `.`;
a purely-`.`/empty relative path renders as `.`; a leading empty component
(an absolute path) keeps its root. -/
def asPosixComps (l : List String) : List String :=
  let r := l.filter (fun c => !(c == "" || c == "."))
  if l.head? = some "" then "" :: r
  else if r = [] then ["."] else r

/-- Model of `make_relative(path)`: `normalize_path(os.path.relpath(path,
BASE_DIR))`, with the script base directory passed explicitly as its
component list. -/
def make_relative (base : List String) (p : String) : String :=
  joinPath (asPosixComps (relpathComps (splitPath p) base))

/-- Model of the inner helper `make_foundry_path(p)` of `save_and_next`:
`f"/modules/{self.module_id}/{make_relative(p)}"`. -/
def make_foundry_path (moduleId : String) (base : List String) (p : String) : String :=
  "/modules/" ++ moduleId ++ "/" ++ make_relative base p

/-- The `art` sub-object of a datastore entry. -/
structure Art where
  portrait : String
  thumb : String
  token : String
  subject : String
  scale : Int
deriving DecidableEq, Repr

/-- One persisted annotation record, as assembled by `save_and_next`.
`tags` is the `tag_data` dict, kept as an association list in the
insertion order of `self.tag_vars`. -/
structure Entry where
  label : String
  key : String
  source : String
  art : Art
  tags : List (String × List String)
deriving DecidableEq, Repr

/-- On-disk state of `datasheet.json` as far as `json.load` is concerned. -/
inductive JsonContent where
  /-- the file does not exist -/
  | absent
  /-- the file exists but `json.load` raises `json.JSONDecodeError` -/
  | invalid
  /-- the file holds a JSON array decoding to these entries -/
  | array (entries : List Entry)
  /-- the file holds well-formed JSON whose top-level value is not an array -/
  | nonArray
deriving DecidableEq, Repr

/-- The entries `save_and_next` ends up with in its local `data` variable
after the guarded `json.load` (`data = []` when the file is absent or the
load raises `JSONDecodeError`; for a non-array value the subsequent
`data.append` raises instead, handled separately in `save_and_next`). -/
def readableEntries : JsonContent → List Entry
  | .array l => l
  | _ => []

/-- Model of `update_saved_count`: the number of entries the count
reports — the array length when the file decodes to a list, `0` when the
file is absent, unreadable, or holds a non-list value. -/
def count_entries : JsonContent → Nat
  | .array l => l.length
  | _ => 0

/-- Outcome of `int(self.scale_var.get())`: the Python `int(...)` call
either produces an integer or raises `ValueError` (the one exception
`save_and_next` catches there). -/
inductive ScaleRead where
  | valueError
  | ok (n : Int)
deriving DecidableEq, Repr

/-- Behaviour of the file system during the `open(JSON_FILE, "w")` /
`json.dump(...)` block of `save_and_next`. -/
inductive WriteOutcome where
  /-- open and dump both succeed; the file now holds the dumped array -/
  | ok
  /-- `open` raises `PermissionError`; the file is untouched -/
  | openPermissionError
  /-- `open` raises some other `OSError`; the file is untouched -/
  | openOtherError
  /-- `open` succeeds (truncating the file) and `json.dump` then raises;
  the truncated or partially written text does not decode -/
  | dumpError
deriving DecidableEq, Repr

/-- How one call to `save_and_next` ended. The first three are the
validation `messagebox.showwarning` + `return` branches, the next two the
`except` branches around the JSON write, `uncaughtAppendError` is the
`AttributeError` that `data.append` raises on a non-list `data` (caught
nowhere), and `saved` is the successful path. -/
inductive SaveOutcome where
  | missingPath1
  | missingLabel
  | scaleError
  | permissionErrorReported
  | writeErrorReported
  | uncaughtAppendError
  | saved (e : Entry)
deriving DecidableEq, Repr

/-- The mutable `ImageTagger` state touched by the modelled operations,
together with the two on-disk files.  `moduleId` and `baseDir` are the
values fixed at startup (`self.module_id` and `BASE_DIR`). -/
structure St where
  moduleId : String
  baseDir : List String
  /-- content of `self.path_entry1` -/
  path1 : String
  /-- content of `self.path_entry2` -/
  path2 : String
  /-- content of `self.label_entry` -/
  labelE : String
  /-- what `int(self.scale_var.get())` yields -/
  scaleGet : ScaleRead
  /-- `self.tag_vars`: group name to (tag name, checkbox value) pairs -/
  tagVars : List (String × List (String × Bool))
  /-- `self.keep_group_vars`: group name to keep-toggle value -/
  keepVars : List (String × Bool)
  /-- on-disk `datasheet.json` -/
  jsonFile : JsonContent
  /-- lines of on-disk `processed_log.txt` -/
  logLines : List String
  /-- in-memory `self.processed_paths` set (as a list; only membership matters) -/
  processedPaths : List String
  /-- `self.saved_count` -/
  savedCount : Nat
  /-- `self.image_files` -/
  imageFiles : List String
  /-- `self.current_index` -/
  currentIndex : Int
deriving DecidableEq, Repr

/-- Model of `update_saved_count` as a state update: re-read the JSON file
and set `self.saved_count` accordingly. -/
def update_saved_count (s : St) : St :=
  { s with savedCount := count_entries s.jsonFile }

/-- Model of `_load_processed_paths` reading the log file:
`set(line.strip() for line in f if line.strip())`.  The result is the
list of stripped non-empty lines; only membership in it is used. -/
def load_processed_paths (log : List String) : List String :=
  (log.map pyStrip).filter (fun x => !(x == ""))

/-- Model of lines 552–556 of `save_and_next` (the spec's
`record_processed`): if the relative path is not in the in-memory set,
add it to the set and append it as one line to the log file
(`_append_to_log` writes `rel_path + "\n"`).  Returns the new
(in-memory set, log lines) pair. -/
def record_processed (mem log : List String) (rel : String) : List String × List String :=
  if rel ∈ mem then (mem, log) else (rel :: mem, log ++ [rel])

/-- The tags each selected to `true` in one group: the list comprehension
`[opt for opt, var in options.items() if var.get()]`. -/
def selectedTags (opts : List (String × Bool)) : List String :=
  (opts.filter (fun p => p.2)).map (fun p => p.1)

/-- The `tag_data` dict built by `save_and_next`: groups whose selection
is empty are skipped, the others map to their selected tags. -/
def tagDataOf (tv : List (String × List (String × Bool))) : List (String × List String) :=
  tv.filterMap (fun p =>
    let sel := selectedTags p.2
    if sel = [] then none else some (p.1, sel))

def categoryOptions : List String :=
  ["humanoid", "aberrant", "aquatic", "bestial", "constructed", "divine",
   "draconic", "elemental", "fey", "fiendish", "fungal", "monitor",
   "planar", "plant", "undead"]

def ancestryOptions : List String :=
  ["dwarf", "elf", "gnome", "goblin", "halfling", "human", "leshy", "orc",
   "amurrun", "azarketi", "fetchling", "hobgoblin", "iruxi", "kholo",
   "kitsune", "kobold", "nagaji", "tengu", "tripkee", "vanara", "ysoki",
   "anadi", "android", "automaton", "conrasu", "fleshwarp", "ghoran",
   "goloma", "kashrishi", "poppet", "shisk", "shoony", "skeleton",
   "sprite", "strix", "vishkanya", "aiuvarin", "beastkin", "changeling",
   "dhampir", "dromaar", "geniekin", "nephilim"]

def equipmentOptions : List String :=
  ["axe", "bludgeon", "bomb", "bow", "brawling", "crossbow", "dart",
   "firearm", "flail", "knife", "pick", "polearm", "shield", "sling",
   "sword", "tome", "scroll", "focus", "unarmored", "clothing",
   "light", "medium", "heavy"]

def featuresOptions : List String :=
  ["magic", "music", "alchemy", "companion", "dual-wielding",
   "prosthetic", "nature", "tech", "winged"]

def familyOptions : List String :=
  ["civilian", "warrior", "sage", "seafarer", "officer", "outcast",
   "worker", "artisan", "affluent"]

def specialOptions : List String :=
  ["bust", "unique", "iconic", "deity"]

/-- The fixed tag taxonomy of `create_tags_structure`, in its dict
insertion order. -/
def create_tags_structure : List (String × List String) :=
  [("category", categoryOptions),
   ("ancestry", ancestryOptions),
   ("equipment", equipmentOptions),
   ("features", featuresOptions),
   ("family", familyOptions),
   ("special", specialOptions)]

/-- `self.tag_vars` as `_build_tag_checkbuttons` lays it out: one boolean
variable per tag of `create_tags_structure`, the current checkbox values
given by the selection function `sel`. -/
def mkTagVars (sel : String → String → Bool) : List (String × List (String × Bool)) :=
  create_tags_structure.map (fun p => (p.1, p.2.map (fun o => (o, sel p.1 o))))

/-- The keep-toggle lookup of lines 565–566: `self.keep_group_vars.get(cat)`
with a missing or unset variable both counting as "do not keep". -/
def lookupKeep (kv : List (String × Bool)) (cat : String) : Bool :=
  match kv.find? (fun p => p.1 = cat) with
  | some p => p.2
  | none => false

/-- Lines 564–569 of `save_and_next`: clear every checkbox of each group
whose keep-toggle is not set. -/
def resetTags (s : St) : St :=
  { s with tagVars := s.tagVars.map (fun p =>
      if lookupKeep s.keepVars p.1 then p
      else (p.1, p.2.map (fun q => (q.1, false)))) }

/-- `os.path.basename`: the part of the path after the last `/`. -/
def basenameOf (p : String) : String :=
  (splitPath p).getLastD ""

/-- The root part of `os.path.splitext`: the name up to the last `.`,
where leading dots of the basename never start an extension. -/
def splitextRoot (name : String) : String :=
  let leading := name.takeWhile (fun c => c = '.')
  let rest := name.drop leading.length
  let parts := rest.splitOn "."
  match parts with
  | [] => name
  | [_] => name
  | ps => leading ++ String.intercalate "." ps.dropLast

/-- The label suggestion `load_preview` derives from a file name:
basename without extension, `_` and `-` replaced by spaces. -/
def labelFromPath (p : String) : String :=
  ((splitextRoot (basenameOf p)).replace "_" " ").replace "-" " "

/-- Model of `load_next_image` (preview rendering aside): advance to the
next file of `self.image_files` if any, filling path 1 and the suggested
label and clearing path 2; otherwise clear all three fields. -/
def load_next_image (s : St) : St :=
  if s.imageFiles ≠ [] ∧ s.currentIndex < s.imageFiles.length - 1 then
    let idx := s.currentIndex + 1
    let next := s.imageFiles.getD idx.toNat ""
    { s with currentIndex := idx, path1 := next, path2 := "",
             labelE := labelFromPath next }
  else
    { s with path1 := "", path2 := "", labelE := "" }

/-- The entry `save_and_next` assembles once validation passed, given the
integer the scale read produced. -/
def mkEntry (s : St) (scale : Int) : Entry :=
  let path2 := if s.path2 = "" then s.path1 else s.path2
  let label := pyStrip s.labelE
  { label := label
    key := label.replace " " "-"
    source := "Token Sammlung"
    art := { portrait := make_foundry_path s.moduleId s.baseDir s.path1
             thumb := make_foundry_path s.moduleId s.baseDir s.path1
             token := make_foundry_path s.moduleId s.baseDir path2
             subject := make_foundry_path s.moduleId s.baseDir path2
             scale := scale }
    tags := tagDataOf s.tagVars }

/-- Lines 552–577 of `save_and_next`, reached only after the JSON write
succeeded: log the relative path if new, bump `self.saved_count`, reset
the non-kept tag groups, clear path 2, and move to the next image. -/
def afterWrite (s : St) : St :=
  let rel := make_relative s.baseDir s.path1
  let r := record_processed s.processedPaths s.logLines rel
  let s1 := { s with processedPaths := r.1, logLines := r.2,
                     savedCount := s.savedCount + 1 }
  load_next_image { resetTags s1 with path2 := "" }

/-- Model of `save_and_next`, the write outcome of the
`open`/`json.dump` block supplied by the `w` oracle.  Mirrors the source
order: path-1 check, path-2 defaulting, label strip and check, scale
read, entry assembly, guarded JSON load, append, write, then the
post-write updates. -/
def save_and_next (s : St) (w : WriteOutcome) : St × SaveOutcome :=
  if s.path1 = "" then (s, .missingPath1)
  else if pyStrip s.labelE = "" then (s, .missingLabel)
  else
    match s.scaleGet with
    | .valueError => (s, .scaleError)
    | .ok n =>
      match s.jsonFile with
      | .nonArray => (s, .uncaughtAppendError)
      | jf =>
        let entry := mkEntry s n
        let newData := readableEntries jf ++ [entry]
        match w with
        | .openPermissionError => (s, .permissionErrorReported)
        | .openOtherError => (s, .writeErrorReported)
        | .dumpError => ({ s with jsonFile := .invalid }, .writeErrorReported)
        | .ok => (afterWrite { s with jsonFile := .array newData }, .saved entry)

/-- The form fields an operator (re)fills before pressing save. -/
structure FormFill where
  path1 : String
  path2 : String
  labelE : String
  scaleGet : ScaleRead
  tagVars : List (String × List (String × Bool))
  keepVars : List (String × Bool)
deriving Repr

/-- Overwrite the form part of the state with fresh operator input. -/
def setForm (s : St) (f : FormFill) : St :=
  { s with path1 := f.path1, path2 := f.path2, labelE := f.labelE,
           scaleGet := f.scaleGet, tagVars := f.tagVars, keepVars := f.keepVars }

/-- A sequence of saves: before each one the operator fills the form,
then presses save under the given write outcome.  Returns the final
state and the outcomes in order. -/
def runSaves : St → List (FormFill × WriteOutcome) → St × List SaveOutcome
  | s, [] => (s, [])
  | s, (f, w) :: rest =>
    let r := save_and_next (setForm s f) w
    let rr := runSaves r.1 rest
    (rr.1, r.2 :: rr.2)

/-- One arrow press of the scale `Spinbox(from_=1, to=10, ...)`:
increment or decrement, clamped to the widget bounds. -/
def spinboxStep (n : Int) (up : Bool) : Int :=
  if up then (if n + 1 ≤ 10 then n + 1 else n)
  else (if 1 ≤ n - 1 then n - 1 else n)

/-- The values `self.scale_var` can reach: it starts at `IntVar(value=1)`
and is only ever changed by the read-only spinbox's arrows. -/
inductive SpinReach : Int → Prop
  | init : SpinReach 1
  | step (n : Int) (up : Bool) : SpinReach n → SpinReach (spinboxStep n up)

/-- A selection choosing `goblin` under `ancestry` and nothing else. -/
def selGoblin : String → String → Bool :=
  fun c o => c == "ancestry" && o == "goblin"

/-- A concrete reachable application state used to instantiate the
theorems: module id entered at startup, script directory `/srv/tagger`,
a portrait chosen, no token image, label suggested from the file name,
scale 3, `goblin` ticked, no files yet on disk. -/
def exBase : St :=
  { moduleId := "token-sammlung"
    baseDir := ["", "srv", "tagger"]
    path1 := "/srv/tagger/images/goblin_warrior.png"
    path2 := ""
    labelE := " Goblin Warrior "
    scaleGet := .ok 3
    tagVars := mkTagVars selGoblin
    keepVars := []
    jsonFile := .absent
    logLines := []
    processedPaths := []
    savedCount := 0
    imageFiles := []
    currentIndex := -1 }

/-- One concrete form filling for a save step. -/
def exFill : FormFill :=
  { path1 := "/srv/tagger/images/goblin_warrior.png"
    path2 := ""
    labelE := "Goblin Warrior"
    scaleGet := .ok 2
    tagVars := mkTagVars selGoblin
    keepVars := [] }

/-- `exBase` with a datastore file that fails to decode. -/
def exC2 : St := { exBase with jsonFile := .invalid }

/-- `exBase` with a datastore file already holding one entry. -/
def exC3 : St := { exBase with jsonFile := .array [mkEntry exBase 3] }

/-- `exBase` with an out-of-range scale value supplied to the save. -/
def exC6 : St := { exBase with scaleGet := .ok 11 }

/-- `exBase` with a scale read that raises `ValueError`. -/
def exC6v : St := { exBase with scaleGet := .valueError }

/-- `exBase` with a datastore file holding a JSON object, not an array. -/
def exC9 : St := { exBase with jsonFile := .nonArray }

/-- `exBase` with a whitespace-only label. -/
def exC10 : St := { exBase with labelE := "   " }

theorem resetTags_jsonFile (s : St) : (resetTags s).jsonFile = s.jsonFile := rfl

theorem load_next_image_jsonFile (s : St) :
    (load_next_image s).jsonFile = s.jsonFile := by
  unfold load_next_image
  split <;> rfl

theorem afterWrite_jsonFile (s : St) : (afterWrite s).jsonFile = s.jsonFile := by
  simp only [afterWrite]
  rw [load_next_image_jsonFile]
  rfl

/-- Success characterization of `save_and_next`: a `saved` outcome can
only come from the `w = ok` branch, with the entry built by `mkEntry`
from the scale the read produced, and the file rewritten to the loaded
entries plus the new one. -/
theorem save_success_spec (s : St) (w : WriteOutcome) (s' : St) (e : Entry)
    (h : save_and_next s w = (s', .saved e)) :
    w = .ok ∧ (∃ n, s.scaleGet = .ok n ∧ e = mkEntry s n) ∧
    s' = afterWrite { s with jsonFile := .array (readableEntries s.jsonFile ++ [e]) } := by
  by_cases h1 : s.path1 = ""
  · simp [save_and_next, h1] at h
  by_cases h2 : pyStrip s.labelE = ""
  · simp [save_and_next, h1, h2] at h
  cases h3 : s.scaleGet with
  | valueError => simp [save_and_next, h1, h2, h3] at h
  | ok n =>
    cases h4 : s.jsonFile with
    | nonArray => simp [save_and_next, h1, h2, h3, h4] at h
    | absent =>
      cases w <;> simp [save_and_next, h1, h2, h3, h4] at h
      obtain ⟨hA, hB⟩ := h
      subst hB
      exact ⟨rfl, ⟨n, rfl, rfl⟩, hA.symm⟩
    | invalid =>
      cases w <;> simp [save_and_next, h1, h2, h3, h4] at h
      obtain ⟨hA, hB⟩ := h
      subst hB
      exact ⟨rfl, ⟨n, rfl, rfl⟩, hA.symm⟩
    | array l =>
      cases w <;> simp [save_and_next, h1, h2, h3, h4] at h
      obtain ⟨hA, hB⟩ := h
      subst hB
      exact ⟨rfl, ⟨n, rfl, rfl⟩, hA.symm⟩

theorem count_entries_eq_length (j : JsonContent) :
    count_entries j = (readableEntries j).length := by
  cases j <;> rfl

theorem runSaves_saved (steps : List (FormFill × WriteOutcome)) : ∀ s : St,
    (∀ o ∈ (runSaves s steps).2, ∃ e, o = .saved e) →
    ∃ es : List Entry, es.length = steps.length ∧
      (runSaves s steps).2 = es.map SaveOutcome.saved ∧
      readableEntries (runSaves s steps).1.jsonFile = readableEntries s.jsonFile ++ es ∧
      (steps ≠ [] → (runSaves s steps).1.jsonFile
        = .array (readableEntries s.jsonFile ++ es)) := by
  induction steps with
  | nil =>
    intro s _
    exact ⟨[], rfl, rfl, by simp [runSaves], by simp⟩
  | cons p rest ih =>
    intro s h
    obtain ⟨f, w⟩ := p
    rcases hr : save_and_next (setForm s f) w with ⟨s1, o1⟩
    have hrun : runSaves s ((f, w) :: rest)
        = ((runSaves s1 rest).1, o1 :: (runSaves s1 rest).2) := by
      simp [runSaves, hr]
    rw [hrun] at h ⊢
    obtain ⟨e, he⟩ := h o1 (by simp)
    subst he
    obtain ⟨hw, ⟨n, hn, hE⟩, hs1⟩ := save_success_spec (setForm s f) w s1 e hr
    have hjson1 : s1.jsonFile = .array (readableEntries s.jsonFile ++ [e]) := by
      rw [hs1, afterWrite_jsonFile]
      rfl
    obtain ⟨es, hlen, houts, hread, hfile⟩ :=
      ih s1 (fun o ho => h o (List.mem_cons_of_mem _ ho))
    refine ⟨e :: es, by simp [hlen], by simp [houts], ?_, fun _ => ?_⟩
    · rw [hread, hjson1]
      simp [readableEntries]
    · rcases rest with _ | ⟨q, qs⟩
      · have hes : es = [] := by
          simpa [runSaves, List.map_eq_nil_iff] using houts
        subst hes
        show (runSaves s1 []).1.jsonFile = _
        simpa [runSaves, readableEntries] using hjson1
      · have hf := hfile (by simp)
        rw [hf, hjson1]
        simp [readableEntries]

/-- Claim C1: for any sequence of N saves that all complete successfully,
the entry count reported after the sequence (`update_saved_count`) equals
N plus the count before it, and the datastore file then holds exactly the
N new entries, appended in save order after the entries that were
readable before the sequence. -/
theorem saves_count_and_contents (s : St) (steps : List (FormFill × WriteOutcome))
    (h : ∀ o ∈ (runSaves s steps).2, ∃ e, o = .saved e) :
    (update_saved_count (runSaves s steps).1).savedCount
      = steps.length + (update_saved_count s).savedCount ∧
    ∃ es : List Entry, es.length = steps.length ∧
      (runSaves s steps).2 = es.map SaveOutcome.saved ∧
      readableEntries (runSaves s steps).1.jsonFile
        = readableEntries s.jsonFile ++ es ∧
      (steps ≠ [] → (runSaves s steps).1.jsonFile
        = .array (readableEntries s.jsonFile ++ es)) := by
  obtain ⟨es, hlen, houts, hread, hfile⟩ := runSaves_saved steps s h
  refine ⟨?_, es, hlen, houts, hread, hfile⟩
  simp only [update_saved_count, count_entries_eq_length, hread]
  simp [hlen, Nat.add_comm]

/-- Witness for C1: one concrete successful save on an empty datastore
raises the reported count from 0 to 1. -/
theorem saves_count_and_contents_instance :
    (update_saved_count (runSaves exBase [(exFill, WriteOutcome.ok)]).1).savedCount
      = 1 + (update_saved_count exBase).savedCount :=
  (saves_count_and_contents exBase [(exFill, WriteOutcome.ok)] (by
    intro o ho
    have hred : (runSaves exBase [(exFill, WriteOutcome.ok)]).2
        = [SaveOutcome.saved (mkEntry (setForm exBase exFill) 2)] := rfl
    rw [hred] at ho
    exact ⟨mkEntry (setForm exBase exFill) 2, List.mem_singleton.mp ho⟩)).1

/-- Claim C2: a save performed while the datastore file exists but holds
invalid JSON does not abort — the corrupt content is treated as an empty
array and the file afterwards holds exactly the one-element array with
the new entry. -/
theorem corrupt_json_replaced (s : St) (n : Int)
    (h1 : s.path1 ≠ "") (h2 : pyStrip s.labelE ≠ "") (h3 : s.scaleGet = .ok n)
    (h4 : s.jsonFile = .invalid) :
    (save_and_next s .ok).2 = .saved (mkEntry s n) ∧
    (save_and_next s .ok).1.jsonFile = .array [mkEntry s n] := by
  have hsave : save_and_next s .ok
      = (afterWrite { s with jsonFile := .array [mkEntry s n] }, .saved (mkEntry s n)) := by
    simp [save_and_next, h1, h2, h3, h4, readableEntries]
  rw [hsave]
  exact ⟨rfl, by rw [afterWrite_jsonFile]⟩

/-- Witness for C2: saving over a corrupt datastore file succeeds and
leaves a single-entry array. -/
theorem corrupt_json_replaced_instance :
    (save_and_next exC2 .ok).2 = .saved (mkEntry exC2 3) ∧
    (save_and_next exC2 .ok).1.jsonFile = .array [mkEntry exC2 3] :=
  corrupt_json_replaced exC2 3 (by decide) (by decide) rfl rfl

theorem save_fail_eq (s : St) (n : Int)
    (h1 : s.path1 ≠ "") (h2 : pyStrip s.labelE ≠ "") (h3 : s.scaleGet = .ok n)
    (h4 : s.jsonFile ≠ .nonArray) :
    save_and_next s .openPermissionError = (s, .permissionErrorReported) ∧
    save_and_next s .openOtherError = (s, .writeErrorReported) ∧
    save_and_next s .dumpError = ({ s with jsonFile := .invalid }, .writeErrorReported) := by
  cases hj : s.jsonFile with
  | nonArray => exact absurd hj h4
  | absent => refine ⟨?_, ?_, ?_⟩ <;> simp [save_and_next, h1, h2, h3, hj]
  | invalid => refine ⟨?_, ?_, ?_⟩ <;> simp [save_and_next, h1, h2, h3, hj]
  | array l => refine ⟨?_, ?_, ?_⟩ <;> simp [save_and_next, h1, h2, h3, hj]

/-- Counterexample to C3 as stated: a write failure raised by `json.dump`
after `open(JSON_FILE, "w")` succeeded does not leave the prior file
contents untouched — the open already truncated the file, so the prior
one-entry array is replaced by undecodable content. -/
theorem write_failure_truncates :
    (save_and_next exC3 .dumpError).2 = .writeErrorReported ∧
    (save_and_next exC3 .dumpError).1.jsonFile = .invalid ∧
    exC3.jsonFile ≠ .invalid := by
  refine ⟨rfl, rfl, by decide⟩

/-- Claim C3 (amended): every failing write is reported and performs no
further state change — no log append, no counter increment, no form
reset; a failure raised by `open` itself (`PermissionError` or another
`OSError`) leaves the prior file contents untouched, while a failure
during `json.dump` leaves the file truncated to undecodable content. -/
theorem write_failure_state (s : St) (w : WriteOutcome) (n : Int) (s' : St) (o : SaveOutcome)
    (h1 : s.path1 ≠ "") (h2 : pyStrip s.labelE ≠ "") (h3 : s.scaleGet = .ok n)
    (h4 : s.jsonFile ≠ .nonArray) (h5 : w ≠ .ok)
    (h : save_and_next s w = (s', o)) :
    (o = .permissionErrorReported ∨ o = .writeErrorReported) ∧
    s'.logLines = s.logLines ∧ s'.processedPaths = s.processedPaths ∧
    s'.savedCount = s.savedCount ∧ s'.path1 = s.path1 ∧ s'.path2 = s.path2 ∧
    s'.labelE = s.labelE ∧ s'.tagVars = s.tagVars ∧
    (w = .openPermissionError → o = .permissionErrorReported ∧ s'.jsonFile = s.jsonFile) ∧
    (w = .openOtherError → o = .writeErrorReported ∧ s'.jsonFile = s.jsonFile) ∧
    (w = .dumpError → o = .writeErrorReported ∧ s'.jsonFile = .invalid) := by
  obtain ⟨e1, e2, e3⟩ := save_fail_eq s n h1 h2 h3 h4
  cases w with
  | ok => exact absurd rfl h5
  | openPermissionError =>
    rw [e1] at h
    injection h with hA hB
    subst hA
    subst hB
    simp
  | openOtherError =>
    rw [e2] at h
    injection h with hA hB
    subst hA
    subst hB
    simp
  | dumpError =>
    rw [e3] at h
    injection h with hA hB
    subst hA
    subst hB
    simp

/-- Witness for the amended C3: a `PermissionError` on open is reported
and leaves the whole state, including the datastore file, unchanged. -/
theorem write_failure_state_instance :
    (save_and_next exC3 .openPermissionError).2 = SaveOutcome.permissionErrorReported ∧
    (save_and_next exC3 .openPermissionError).1.logLines = exC3.logLines ∧
    (save_and_next exC3 .openPermissionError).1.processedPaths = exC3.processedPaths ∧
    (save_and_next exC3 .openPermissionError).1.savedCount = exC3.savedCount ∧
    (save_and_next exC3 .openPermissionError).1.tagVars = exC3.tagVars ∧
    (save_and_next exC3 .openPermissionError).1.jsonFile = exC3.jsonFile := by
  have hth := write_failure_state exC3 .openPermissionError 3
      (save_and_next exC3 .openPermissionError).1 (save_and_next exC3 .openPermissionError).2
      (by decide) (by decide) rfl (by decide) (by decide) rfl
  obtain ⟨_, hlog, hmem, hcount, _, _, _, htv, hperm, _, _⟩ := hth
  obtain ⟨ho2, hjson⟩ := hperm rfl
  exact ⟨ho2, hlog, hmem, hcount, htv, hjson⟩

theorem selectedTags_map (selc : String → Bool) (os : List String) :
    selectedTags (os.map (fun o => (o, selc o))) = os.filter selc := by
  induction os with
  | nil => rfl
  | cons a t ih =>
    simp only [List.map_cons, selectedTags, List.filter_cons] at ih ⊢
    by_cases h : selc a <;> simp [h] <;> simpa [selectedTags] using ih

theorem mem_tagDataOf (tv : List (String × List (String × Bool))) (c : String) (l : List String) :
    (c, l) ∈ tagDataOf tv ↔
      ∃ opts, (c, opts) ∈ tv ∧ selectedTags opts = l ∧ l ≠ [] := by
  unfold tagDataOf
  rw [List.mem_filterMap]
  constructor
  · rintro ⟨⟨c', opts⟩, hmem, hf⟩
    dsimp at hf
    by_cases hsel : selectedTags opts = []
    · simp [hsel] at hf
    · simp [hsel] at hf
      obtain ⟨hc, hl⟩ := hf
      subst hc
      exact ⟨opts, hmem, hl, by rw [← hl]; exact hsel⟩
  · rintro ⟨opts, hmem, hsel, hne⟩
    refine ⟨(c, opts), hmem, ?_⟩
    have hne2 : selectedTags opts ≠ [] := by rw [hsel]; exact hne
    simp [hne2, hsel, hne]

theorem assoc_key_unique {β : Type} (l : List (String × β)) (c : String) (a b : β)
    (hnd : (l.map Prod.fst).Nodup) (ha : (c, a) ∈ l) (hb : (c, b) ∈ l) : a = b := by
  induction l with
  | nil => cases ha
  | cons p t ih =>
    rw [List.map_cons, List.nodup_cons] at hnd
    obtain ⟨hp, hnd'⟩ := hnd
    rcases List.mem_cons.mp ha with h1 | h1
    · rcases List.mem_cons.mp hb with h2 | h2
      · rw [← h1] at h2
        injection h2 with _ h
        exact h.symm
      · exfalso
        apply hp
        rw [← h1]
        exact List.mem_map.mpr ⟨(c, b), h2, rfl⟩
    · rcases List.mem_cons.mp hb with h2 | h2
      · exfalso
        apply hp
        rw [← h2]
        exact List.mem_map.mpr ⟨(c, a), h1, rfl⟩
      · exact ih hnd' h1 h2

theorem mem_mkTagVars (sel : String → String → Bool) (c : String) (opts : List (String × Bool)) :
    (c, opts) ∈ mkTagVars sel ↔
      ∃ os, (c, os) ∈ create_tags_structure ∧ opts = os.map (fun o => (o, sel c o)) := by
  unfold mkTagVars
  rw [List.mem_map]
  constructor
  · rintro ⟨⟨c', os⟩, hmem, heq⟩
    dsimp at heq
    injection heq with hc ho
    subst hc
    exact ⟨os, hmem, ho.symm⟩
  · rintro ⟨os, hmem, heq⟩
    exact ⟨(c, os), hmem, by rw [heq]⟩

/-- Claim C4: the stored `tags` mapping holds exactly the categories with
at least one selected tag, each mapped to exactly its selected tags, and
a category with zero selected tags is absent from the mapping. -/
theorem tags_exact_selection (s : St) (w : WriteOutcome) (sel : String → String → Bool)
    (s' : St) (e : Entry)
    (hsel : s.tagVars = mkTagVars sel)
    (h : save_and_next s w = (s', .saved e)) :
    (∀ c opts, (c, opts) ∈ create_tags_structure →
        (opts.filter (sel c) ≠ [] → (c, opts.filter (sel c)) ∈ e.tags) ∧
        (opts.filter (sel c) = [] → ∀ l, (c, l) ∉ e.tags)) ∧
    (∀ c l, (c, l) ∈ e.tags →
        l ≠ [] ∧ ∃ opts, (c, opts) ∈ create_tags_structure ∧ l = opts.filter (sel c)) := by
  obtain ⟨_, ⟨n, _, hE⟩, _⟩ := save_success_spec s w s' e h
  have htags : e.tags = tagDataOf (mkTagVars sel) := by
    rw [hE]
    simp [mkEntry, hsel]
  constructor
  · intro c opts hmem
    constructor
    · intro hne
      rw [htags, mem_tagDataOf]
      refine ⟨opts.map (fun o => (o, sel c o)), ?_, ?_, hne⟩
      · rw [mem_mkTagVars]
        exact ⟨opts, hmem, rfl⟩
      · exact selectedTags_map (sel c) opts
    · intro hemp l hl
      rw [htags, mem_tagDataOf] at hl
      obtain ⟨opts', hmem', hsel', hne'⟩ := hl
      rw [mem_mkTagVars] at hmem'
      obtain ⟨os, hos, heq⟩ := hmem'
      have hu : os = opts := assoc_key_unique create_tags_structure c os opts (by decide) hos hmem
      subst hu
      rw [heq, selectedTags_map] at hsel'
      rw [hemp] at hsel'
      exact hne' hsel'.symm
  · intro c l hl
    rw [htags, mem_tagDataOf] at hl
    obtain ⟨opts', hmem', hsel', hne'⟩ := hl
    rw [mem_mkTagVars] at hmem'
    obtain ⟨os, hos, heq⟩ := hmem'
    refine ⟨hne', os, hos, ?_⟩
    rw [heq, selectedTags_map] at hsel'
    exact hsel'.symm

/-- Witness for C4: selecting only `goblin` under `ancestry` stores
`tags` with the `ancestry` entry `["goblin"]` and no `category` key. -/
theorem tags_exact_selection_instance :
    ("ancestry", ["goblin"]) ∈ (mkEntry exBase 3).tags ∧
    ("category", ["humanoid"]) ∉ (mkEntry exBase 3).tags := by
  have h := tags_exact_selection exBase .ok selGoblin (save_and_next exBase .ok).1
      (mkEntry exBase 3) rfl rfl
  constructor
  · have h2 := (h.1 "ancestry" ancestryOptions (by decide)).1 (by decide)
    have he : ancestryOptions.filter (selGoblin "ancestry") = ["goblin"] := by decide
    rw [he] at h2
    exact h2
  · exact (h.1 "category" categoryOptions (by decide)).2 (by decide) ["humanoid"]

/-- Claim C5: in every stored entry, `portrait` and `thumb` both equal
the Foundry path derived from image 1, `token` and `subject` both equal
the Foundry path derived from image 2, and an empty image-2 field makes
`token`/`subject` equal the image-1 value. -/
theorem art_path_invariant (s : St) (w : WriteOutcome) (s' : St) (e : Entry)
    (h : save_and_next s w = (s', .saved e)) :
    e.art.portrait = make_foundry_path s.moduleId s.baseDir s.path1 ∧
    e.art.thumb = e.art.portrait ∧
    e.art.token = make_foundry_path s.moduleId s.baseDir
      (if s.path2 = "" then s.path1 else s.path2) ∧
    e.art.subject = e.art.token ∧
    (s.path2 = "" → e.art.token = e.art.portrait) := by
  obtain ⟨_, ⟨n, _, hE⟩, _⟩ := save_success_spec s w s' e h
  subst hE
  refine ⟨rfl, rfl, rfl, rfl, fun hp => ?_⟩
  simp [mkEntry, hp]

/-- Witness for C5: a concrete save with the image-2 field left empty
yields all four art paths equal to the image-1 path. -/
theorem art_path_invariant_instance :
    (mkEntry exBase 3).art.portrait
      = make_foundry_path exBase.moduleId exBase.baseDir exBase.path1 ∧
    (mkEntry exBase 3).art.thumb = (mkEntry exBase 3).art.portrait ∧
    (mkEntry exBase 3).art.subject = (mkEntry exBase 3).art.token ∧
    (mkEntry exBase 3).art.token = (mkEntry exBase 3).art.portrait := by
  have h := art_path_invariant exBase .ok (save_and_next exBase .ok).1 (mkEntry exBase 3) rfl
  exact ⟨h.1, h.2.1, h.2.2.2.1, h.2.2.2.2 rfl⟩

theorem spinReach_bounds (n : Int) (h : SpinReach n) : 1 ≤ n ∧ n ≤ 10 := by
  induction h with
  | init => omega
  | step m up _ ih =>
    obtain ⟨hl, hr⟩ := ih
    unfold spinboxStep
    split <;> split <;> omega

/-- Counterexample to C6 as stated: `save_and_next` performs no range
check on the scale, so a save attempt with the out-of-range integer 11
is not reported — it succeeds and stores 11 in the entry. -/
theorem out_of_range_scale_stored :
    (save_and_next exC6 .ok).2 = .saved (mkEntry exC6 11) ∧
    (mkEntry exC6 11).art.scale = 11 ∧
    (save_and_next exC6 .ok).1.jsonFile = .array [mkEntry exC6 11] := by
  refine ⟨rfl, rfl, ?_⟩
  have h : (save_and_next exC6 .ok).1
      = afterWrite { exC6 with jsonFile := .array [mkEntry exC6 11] } := rfl
  rw [h, afterWrite_jsonFile]

/-- Claim C6 (amended): a scale read that raises `ValueError` is
reported and no write is performed; `save_and_next` itself performs no
range check, but the read-only spinbox bound to 1–10 is the only writer
of the scale variable, so every scale it can supply — and hence every
scale stored through the form — is an integer between 1 and 10. -/
theorem scale_handling (s : St) (w : WriteOutcome) :
    (s.path1 ≠ "" → pyStrip s.labelE ≠ "" → s.scaleGet = .valueError →
      save_and_next s w = (s, .scaleError)) ∧
    (∀ n s' e, s.scaleGet = .ok n → SpinReach n →
      save_and_next s w = (s', .saved e) → 1 ≤ e.art.scale ∧ e.art.scale ≤ 10) := by
  constructor
  · intro h1 h2 h3
    simp [save_and_next, h1, h2, h3]
  · intro n s' e hn hreach h
    obtain ⟨hw, ⟨m, hm, hE⟩, _⟩ := save_success_spec s w s' e h
    rw [hn] at hm
    injection hm with hnm
    subst hnm
    subst hE
    exact spinReach_bounds n hreach

/-- Witness for the amended C6: a `ValueError` scale read is reported
without a write, and a save with the spinbox-reachable scale 3 stores a
scale within 1–10. -/
theorem scale_handling_instance :
    save_and_next exC6v .ok = (exC6v, .scaleError) ∧
    (1 ≤ (mkEntry exBase 3).art.scale ∧ (mkEntry exBase 3).art.scale ≤ 10) := by
  constructor
  · exact (scale_handling exC6v .ok).1 (by decide) (by decide) rfl
  · exact (scale_handling exBase .ok).2 3 (save_and_next exBase .ok).1 (mkEntry exBase 3) rfl
      (SpinReach.step 2 true (SpinReach.step 1 true SpinReach.init)) rfl

/-- Counterexample to C7 as stated: recording a path with a trailing
space appends it verbatim to the log, but a fresh load strips each line,
so the recorded path itself is not a member of the loaded set. -/
theorem whitespace_path_lost :
    (record_processed [] [] "images/goblin.png ").2 = ["images/goblin.png "] ∧
    "images/goblin.png " ∉ load_processed_paths ["images/goblin.png "] := by
  refine ⟨rfl, by decide⟩

/-- Claim C7 (amended): for a path that equals its own strip and is
non-empty (every path the log can faithfully round-trip), a recorded
path is a member of a fresh load of the log, provided the in-memory set
only holds paths already readable from the log; and recording the same
path a second time against the resulting state changes neither the set
nor the log lines. -/
theorem record_processed_membership (mem log : List String) (rel : String)
    (hstrip : pyStrip rel = rel) (hne : rel ≠ "")
    (hcoh : rel ∈ mem → rel ∈ load_processed_paths log) :
    rel ∈ load_processed_paths (record_processed mem log rel).2 ∧
    record_processed (record_processed mem log rel).1
      (record_processed mem log rel).2 rel = record_processed mem log rel := by
  by_cases hm : rel ∈ mem
  · rw [record_processed, if_pos hm]
    refine ⟨hcoh hm, ?_⟩
    rw [record_processed, if_pos hm]
  · rw [record_processed, if_neg hm]
    constructor
    · unfold load_processed_paths
      rw [List.mem_filter]
      constructor
      · rw [List.mem_map]
        exact ⟨rel, by simp, hstrip⟩
      · simpa using hne
    · rw [record_processed, if_pos (by simp)]

/-- Witness for the amended C7: a concrete clean relative path is found
by a fresh load after recording, and a second recording is a no-op. -/
theorem record_processed_membership_instance :
    "images/goblin_warrior.png" ∈ load_processed_paths
      (record_processed [] [] "images/goblin_warrior.png").2 ∧
    record_processed (record_processed [] [] "images/goblin_warrior.png").1
      (record_processed [] [] "images/goblin_warrior.png").2 "images/goblin_warrior.png"
      = record_processed [] [] "images/goblin_warrior.png" :=
  record_processed_membership [] [] "images/goblin_warrior.png" (by decide) (by decide)
    (fun hmem => absurd hmem (by decide))

theorem foldl_normStep_clean (l : List String) : ∀ acc : List String,
    (∀ c ∈ l, c ≠ "" ∧ c ≠ "." ∧ c ≠ "..") →
    l.foldl normStep acc = l.reverse ++ acc := by
  induction l with
  | nil => intro acc _; rfl
  | cons a t ih =>
    intro acc hcl
    obtain ⟨h1, h2, h3⟩ := hcl a (by simp)
    rw [List.foldl_cons]
    have hstep : normStep acc a = a :: acc := by
      simp [normStep, h1, h2, h3]
    rw [hstep, ih _ (fun c hc => hcl c (by simp [hc]))]
    simp

theorem foldl_normStep_members (l : List String) : ∀ acc : List String,
    (∀ x ∈ acc, x ≠ "" ∧ x ≠ "." ∧ x ≠ "..") →
    ∀ x ∈ l.foldl normStep acc, x ≠ "" ∧ x ≠ "." ∧ x ≠ ".." := by
  induction l with
  | nil => intro acc hacc; exact hacc
  | cons a t ih =>
    intro acc hacc
    rw [List.foldl_cons]
    apply ih
    intro x hx
    unfold normStep at hx
    by_cases h1 : a = "" ∨ a = "."
    · rw [if_pos h1] at hx
      exact hacc x hx
    · rw [if_neg h1] at hx
      by_cases h2 : a = ".."
      · rw [if_pos h2] at hx
        exact hacc x (List.mem_of_mem_tail hx)
      · rw [if_neg h2] at hx
        rcases List.mem_cons.mp hx with h | h
        · subst h
          exact ⟨fun hh => h1 (Or.inl hh), fun hh => h1 (Or.inr hh), h2⟩
        · exact hacc x h

theorem normComponents_clean (l : List String) :
    ∀ x ∈ normComponents l, x ≠ "" ∧ x ≠ "." ∧ x ≠ ".." := by
  intro x hx
  rw [normComponents, List.mem_reverse] at hx
  exact foldl_normStep_members l [] (by simp) x hx

theorem commonPrefixLen_append (l r : List String) :
    commonPrefixLen l (l ++ r) = l.length := by
  induction l with
  | nil => rfl
  | cons a t ih => simp [commonPrefixLen, ih]

/-- Claim C8: for a path inside the base directory tree, `make_relative`
(relpath then POSIX normalization) followed by prefixing the base
directory and resolving yields the same resolved path as the input —
relativization is a left inverse of joining with the base, up to
normalization. -/
theorem make_relative_roundtrip (base p : List String)
    (h : ∃ rest, normComponents p = normComponents base ++ rest) :
    normComponents (base ++ asPosixComps (relpathComps p base)) = normComponents p := by
  obtain ⟨rest, hrest⟩ := h
  have hrel : relpathComps p base = if rest = [] then ["."] else rest := by
    simp only [relpathComps]
    rw [hrest, commonPrefixLen_append, Nat.sub_self, List.drop_left]
    simp
  by_cases hrne : rest = []
  · subst hrne
    rw [hrel, if_pos rfl]
    have hdot : asPosixComps ["."] = ["."] := by decide
    rw [hdot]
    have hbase : normComponents (base ++ ["."]) = normComponents base := by
      unfold normComponents
      rw [List.foldl_append]
      rfl
    rw [hbase, hrest]
    simp
  · have hclean : ∀ x ∈ rest, x ≠ "" ∧ x ≠ "." ∧ x ≠ ".." := by
      intro x hx
      exact normComponents_clean p x (by rw [hrest]; exact List.mem_append_right _ hx)
    have hapos : asPosixComps rest = rest := by
      unfold asPosixComps
      have hfilter : rest.filter (fun c => !(c == "" || c == ".")) = rest := by
        rw [List.filter_eq_self]
        intro a ha
        obtain ⟨h1, h2, _⟩ := hclean a ha
        simp [h1, h2]
      rw [hfilter]
      cases rest with
      | nil => exact absurd rfl hrne
      | cons x xs =>
        obtain ⟨h1, _, _⟩ := hclean x (by simp)
        rw [if_neg (by simp [h1]), if_neg (by simp)]
    rw [hrel, if_neg hrne, hapos, hrest]
    unfold normComponents
    rw [List.foldl_append, foldl_normStep_clean rest _ hclean]
    simp [List.reverse_append]

/-- Witness for C8: a concrete image path under the base directory
round-trips through `make_relative` and rejoining. -/
theorem make_relative_roundtrip_instance :
    normComponents (["", "srv", "tagger"] ++ asPosixComps (relpathComps
      ["", "srv", "tagger", "images", "goblin.png"] ["", "srv", "tagger"]))
      = normComponents ["", "srv", "tagger", "images", "goblin.png"] :=
  make_relative_roundtrip ["", "srv", "tagger"] ["", "srv", "tagger", "images", "goblin.png"]
    ⟨["images", "goblin.png"], by decide⟩

/-- Claim C9: with a datastore file holding well-formed JSON whose
top-level value is not an array, the count reports 0, and a save attempt
does not treat the file as empty — the load succeeds, the append to the
non-list raises an uncaught error, and no write takes place (the state
is returned unchanged). -/
theorem non_array_json_save_aborts (s : St) (w : WriteOutcome) (n : Int)
    (h1 : s.path1 ≠ "") (h2 : pyStrip s.labelE ≠ "") (h3 : s.scaleGet = .ok n)
    (h4 : s.jsonFile = .nonArray) :
    save_and_next s w = (s, .uncaughtAppendError) ∧ count_entries s.jsonFile = 0 := by
  refine ⟨by simp [save_and_next, h1, h2, h3, h4], by rw [h4]; rfl⟩

/-- Witness for C9: a concrete save over a JSON-object datastore file
raises the uncaught append error and changes nothing. -/
theorem non_array_json_instance :
    save_and_next exC9 .ok = (exC9, .uncaughtAppendError) ∧ count_entries exC9.jsonFile = 0 :=
  non_array_json_save_aborts exC9 .ok 3 (by decide) (by decide) rfl rfl

theorem head_dropWhile_not (p : Char → Bool) (l : List Char) (c : Char)
    (h : (l.dropWhile p).head? = some c) : p c = false := by
  induction l with
  | nil => simp [List.dropWhile] at h
  | cons a t ih =>
    rw [List.dropWhile_cons] at h
    by_cases hp : p a
    · simp [hp] at h
      exact ih h
    · simp [hp] at h
      subst h
      simpa using hp

theorem dropWhile_eats (p : Char → Bool) (l : List Char) :
    ∃ u, u ++ l.dropWhile p = l := by
  induction l with
  | nil => exact ⟨[], rfl⟩
  | cons a t ih =>
    rw [List.dropWhile_cons]
    by_cases hp : p a
    · obtain ⟨u, hu⟩ := ih
      exact ⟨a :: u, by simp [hp, hu]⟩
    · exact ⟨[], by simp [hp]⟩

theorem head?_append_some {α : Type} (xs ys : List α) (c : α) (h : xs.head? = some c) :
    (xs ++ ys).head? = some c := by
  cases xs <;> simp_all

theorem pyStrip_head (s : String) (c : Char)
    (h : (pyStrip s).data.head? = some c) : c.isWhitespace = false := by
  have hd : (pyStrip s).data
      = ((s.data.dropWhile Char.isWhitespace).reverse.dropWhile Char.isWhitespace).reverse := rfl
  rw [hd] at h
  obtain ⟨u, hu⟩ :=
    dropWhile_eats Char.isWhitespace (s.data.dropWhile Char.isWhitespace).reverse
  have hsplit :
      ((s.data.dropWhile Char.isWhitespace).reverse.dropWhile Char.isWhitespace).reverse
        ++ u.reverse = s.data.dropWhile Char.isWhitespace := by
    have h2 := congrArg List.reverse hu
    simpa [List.reverse_append] using h2
  have hhead : (s.data.dropWhile Char.isWhitespace).head? = some c := by
    rw [← hsplit]
    exact head?_append_some _ _ _ h
  exact head_dropWhile_not _ _ _ hhead

theorem pyStrip_last (s : String) (c : Char)
    (h : (pyStrip s).data.getLast? = some c) : c.isWhitespace = false := by
  have h2 : (pyStrip s).data.reverse.head? = some c := by
    rw [List.head?_reverse]
    exact h
  have hd : (pyStrip s).data.reverse
      = (s.data.dropWhile Char.isWhitespace).reverse.dropWhile Char.isWhitespace := by
    simp [pyStrip]
  rw [hd] at h2
  exact head_dropWhile_not _ _ _ h2

/-- Claim C10: the label is stripped before use — a whitespace-only
label is rejected exactly like a missing one, and every stored entry
carries the stripped label (no leading or trailing whitespace) with the
`key` equal to that label with spaces replaced by hyphens. -/
theorem label_stripped (s : St) (w : WriteOutcome) :
    (s.path1 ≠ "" → pyStrip s.labelE = "" → save_and_next s w = (s, .missingLabel)) ∧
    (∀ s' e, save_and_next s w = (s', .saved e) →
      e.label = pyStrip s.labelE ∧
      e.key = (pyStrip s.labelE).replace " " "-" ∧
      (∀ c, e.label.data.head? = some c → c.isWhitespace = false) ∧
      (∀ c, e.label.data.getLast? = some c → c.isWhitespace = false)) := by
  constructor
  · intro h1 h2
    simp [save_and_next, h1, h2]
  · intro s' e h
    obtain ⟨hw, ⟨n, hn, hE⟩, _⟩ := save_success_spec s w s' e h
    subst hE
    refine ⟨rfl, rfl, ?_, ?_⟩
    · intro c hc
      exact pyStrip_head s.labelE c hc
    · intro c hc
      exact pyStrip_last s.labelE c hc

/-- Witness for C10: a whitespace-only label is rejected with no write,
and a concrete save with label " Goblin Warrior " stores the stripped
label and the hyphenated key. -/
theorem label_stripped_instance :
    save_and_next exC10 .ok = (exC10, .missingLabel) ∧
    (mkEntry exBase 3).label = pyStrip exBase.labelE ∧
    (mkEntry exBase 3).key = (pyStrip exBase.labelE).replace " " "-" := by
  refine ⟨(label_stripped exC10 .ok).1 (by decide) (by decide), ?_, ?_⟩
  · exact ((label_stripped exBase .ok).2 (save_and_next exBase .ok).1 (mkEntry exBase 3) rfl).1
  · exact ((label_stripped exBase .ok).2 (save_and_next exBase .ok).1 (mkEntry exBase 3) rfl).2.1
